import Mathlib

/-
Shallow embedding of the shading pipeline in src/shaders.rs of the
Lab4-Shaders repository (a software rasterizer's vertex and fragment
shader stages), together with proofs of the specified properties.

Machine floats (f32) are modelled by real numbers; the external noise
source (`uniforms.noise.get_noise_2d`) is modelled as an arbitrary
function from pairs of reals to reals, matching its contract of being
a deterministic pure 2D scalar field.
-/

noncomputable section

open Classical

/-- Two-component vector (texture coordinates), mirroring nalgebra's Vec2. -/
structure Vec2 where
  x : ℝ
  y : ℝ
deriving DecidableEq

/-- Three-component vector, mirroring nalgebra's Vec3. -/
structure Vec3 where
  x : ℝ
  y : ℝ
  z : ℝ
deriving DecidableEq

/-- Four-component homogeneous vector, mirroring nalgebra's Vec4. -/
structure Vec4 where
  x : ℝ
  y : ℝ
  z : ℝ
  w : ℝ
deriving DecidableEq

/-- A 4x4 real matrix, mirroring nalgebra's Mat4. -/
abbrev Mat4 : Type := Matrix (Fin 4) (Fin 4) ℝ

/-- A 3x3 real matrix, mirroring nalgebra's Mat3. -/
abbrev Mat3 : Type := Matrix (Fin 3) (Fin 3) ℝ

/-- Matrix-vector product of a Mat4 with a Vec4 (nalgebra's `m * v`). -/
def mulVec4 (m : Mat4) (v : Vec4) : Vec4 :=
  ⟨m 0 0 * v.x + m 0 1 * v.y + m 0 2 * v.z + m 0 3 * v.w,
   m 1 0 * v.x + m 1 1 * v.y + m 1 2 * v.z + m 1 3 * v.w,
   m 2 0 * v.x + m 2 1 * v.y + m 2 2 * v.z + m 2 3 * v.w,
   m 3 0 * v.x + m 3 1 * v.y + m 3 2 * v.z + m 3 3 * v.w⟩

/-- Matrix-vector product of a Mat3 with a Vec3 (nalgebra's `m * v`). -/
def mulVec3 (m : Mat3) (v : Vec3) : Vec3 :=
  ⟨m 0 0 * v.x + m 0 1 * v.y + m 0 2 * v.z,
   m 1 0 * v.x + m 1 1 * v.y + m 1 2 * v.z,
   m 2 0 * v.x + m 2 1 * v.y + m 2 2 * v.z⟩

/-- Upper-left 3x3 block of a 4x4 matrix (nalgebra_glm's `mat4_to_mat3`). -/
def mat4_to_mat3 (m : Mat4) : Mat3 :=
  Matrix.of fun i j => m i.castSucc j.castSucc

/-- Fallible matrix inversion (nalgebra's `try_inverse`): `some` of the
inverse when the matrix is invertible, `none` when it is singular. -/
def try_inverse (m : Mat3) : Option Mat3 :=
  if IsUnit m.det then some m⁻¹ else none

/-- Euclidean dot product of two Vec3 values (nalgebra's `dot`). -/
def Vec3.dot (a b : Vec3) : ℝ :=
  a.x * b.x + a.y * b.y + a.z * b.z

/-- Normalization of a Vec3 (nalgebra's `normalize`): divide each
component by the Euclidean norm. -/
def Vec3.normalize (v : Vec3) : Vec3 :=
  let n : ℝ := Real.sqrt (v.x ^ 2 + v.y ^ 2 + v.z ^ 2)
  ⟨v.x / n, v.y / n, v.z / n⟩

/-- Rust's `f32::clamp(lo, hi)`: constrain a value to the interval
[lo, hi] (for lo ≤ hi). -/
def rclamp (v lo hi : ℝ) : ℝ :=
  min (max v lo) hi

/-- Modelled from the spec: the repository's `Color` type (src/color.rs
is not part of the provided sources). Three channels, each kept within
the representable range [0, 255]. -/
structure Color where
  r : ℝ
  g : ℝ
  b : ℝ
deriving DecidableEq

/-- Modelled from the spec: `Color::new` builds a color from its three
channel values. -/
def Color.new (r g b : ℝ) : Color :=
  ⟨r, g, b⟩

/-- Modelled from the spec: `Color::lerp(other, t)` — channel-wise
linear interpolation between `self` (at t = 0) and `other` (at t = 1);
callers clamp t to [0, 1] before use. -/
def Color.lerp (a other : Color) (t : ℝ) : Color :=
  ⟨a.r + (other.r - a.r) * t,
   a.g + (other.g - a.g) * t,
   a.b + (other.b - a.b) * t⟩

/-- Modelled from the spec: `Color * factor` (the `scale` operation) —
multiply each channel by a scalar and clamp to the valid channel range
(saturating, not wrapping). -/
def Color.scale (c : Color) (factor : ℝ) : Color :=
  ⟨rclamp (c.r * factor) 0 255,
   rclamp (c.g * factor) 0 255,
   rclamp (c.b * factor) 0 255⟩

/-- A vertex as consumed and produced by the vertex stage
(src/vertex.rs is external; fields as used by src/shaders.rs). -/
structure Vertex where
  position : Vec3
  normal : Vec3
  tex_coords : Vec2
  color : Color
  transformed_position : Vec3
  transformed_normal : Vec3

/-- A rasterized fragment as consumed by the fragment stage
(src/fragment.rs is external; fields as used by src/shaders.rs). -/
structure Fragment where
  vertex_position : Vec3
  normal : Vec3
  intensity : ℝ
  color : Color

/-- Per-draw-call uniforms (the Uniforms struct is external; fields as
used by src/shaders.rs). `time` is an integer tick count, cast to f32
inside the shaders (`uniforms.time as f32`); `noise` models the noise
handle's pure `get_noise_2d` function. -/
structure Uniforms where
  model_matrix : Mat4
  view_matrix : Mat4
  projection_matrix : Mat4
  viewport_matrix : Mat4
  time : ℕ
  noise : ℝ → ℝ → ℝ

/-- The vertex stage (src/shaders.rs, `vertex_shader`): promote the
position to homogeneous form, apply projection * view * model, divide
by the clip-space w, re-homogenize with w = 1, apply the viewport
matrix, and keep x, y, z; the normal is transformed by the inverse of
the transposed upper-left 3x3 block of the model matrix, with identity
as the fallback for a singular block. -/
def vertex_shader (vertex : Vertex) (uniforms : Uniforms) : Vertex :=
  let position : Vec4 :=
    ⟨vertex.position.x, vertex.position.y, vertex.position.z, 1⟩
  let transformed : Vec4 :=
    mulVec4 (uniforms.projection_matrix * uniforms.view_matrix *
      uniforms.model_matrix) position
  let w : ℝ := transformed.w
  let transformed_position : Vec4 :=
    ⟨transformed.x / w, transformed.y / w, transformed.z / w, 1⟩
  let screen_position : Vec4 :=
    mulVec4 uniforms.viewport_matrix transformed_position
  let model_mat3 : Mat3 := mat4_to_mat3 uniforms.model_matrix
  let normal_matrix : Mat3 :=
    (try_inverse model_mat3.transpose).getD 1
  let transformed_normal : Vec3 := mulVec3 normal_matrix vertex.normal
  { position := vertex.position
    normal := vertex.normal
    tex_coords := vertex.tex_coords
    color := vertex.color
    transformed_position :=
      ⟨screen_position.x, screen_position.y, screen_position.z⟩
    transformed_normal := transformed_normal }

/-- Pre-scaling color of `ripple_shader` (the local `final_color` at
src/shaders.rs line 74): steel blue blended toward light blue by the
clamped sine-wave ripple value. -/
def ripplePreColor (fragment : Fragment) (uniforms : Uniforms) : Color :=
  let pos := fragment.vertex_position
  let wave_speed : ℝ := 0.3
  let wave_frequency : ℝ := 10.0
  let wave_amplitude : ℝ := 0.05
  let time : ℝ := (uniforms.time : ℝ) * wave_speed
  let distance : ℝ := Real.sqrt (pos.x ^ 2 + pos.y ^ 2)
  let ripple : ℝ := Real.sin (wave_frequency * (distance - time)) * wave_amplitude
  let base_color : Color := Color.new 70 130 180
  let ripple_color : Color := Color.new 173 216 230
  let color_factor : ℝ := rclamp ripple 0 1
  base_color.lerp ripple_color color_factor

/-- The ripple variant (src/shaders.rs, `ripple_shader`): its
pre-scaling color, scaled by the fragment intensity. -/
def ripple_shader (fragment : Fragment) (uniforms : Uniforms) : Color :=
  (ripplePreColor fragment uniforms).scale fragment.intensity

/-- Pre-scaling color of `sun_shader` (the local `final_color` at
src/shaders.rs line 107): orange-red base blended toward a
noise-selected bright or dark-spot color by the clamped noise value. -/
def sunPreColor (fragment : Fragment) (uniforms : Uniforms) : Color :=
  let zoom : ℝ := 50.0
  let x := fragment.vertex_position.x
  let y := fragment.vertex_position.y
  let time : ℝ := (uniforms.time : ℝ) * 0.01
  let noise_value : ℝ := uniforms.noise (x * zoom + time) (y * zoom + time)
  let bright_color : Color := Color.new 255 255 102
  let dark_spot_color : Color := Color.new 139 0 0
  let base_color : Color := Color.new 255 69 0
  let spot_threshold : ℝ := 0.6
  let noise_color : Color :=
    if noise_value < spot_threshold then bright_color else dark_spot_color
  base_color.lerp noise_color (rclamp noise_value 0 1)

/-- The sun variant (src/shaders.rs, `sun_shader`): its pre-scaling
color, scaled by the fragment intensity. -/
def sun_shader (fragment : Fragment) (uniforms : Uniforms) : Color :=
  (sunPreColor fragment uniforms).scale fragment.intensity

/-- The x offset of the circle center at column i of the moving circle
grid in `noise_shader` (src/shaders.rs line 134). -/
def circleOffsetX (uniforms : Uniforms) (i : ℤ) : ℝ :=
  let speed : ℝ := 0.2
  let time : ℝ := (uniforms.time : ℝ) * 0.01
  (i : ℝ) * 0.3 + time * speed

/-- The y offset of the circle center at row j of the moving circle
grid in `noise_shader` (src/shaders.rs line 135). -/
def circleOffsetY (uniforms : Uniforms) (j : ℤ) : ℝ :=
  let speed : ℝ := 0.2
  let time : ℝ := (uniforms.time : ℝ) * 0.01
  (j : ℝ) * 0.3 + time * speed * 0.5

/-- The hit test of `noise_shader`'s inner loop (src/shaders.rs line
139): the fragment lies strictly within radius 0.1 of the circle
center indexed by (i, j). -/
def circleHit (fragment : Fragment) (uniforms : Uniforms) (i j : ℤ) : Prop :=
  let pos := fragment.vertex_position
  let radius : ℝ := 0.1
  Real.sqrt ((pos.x - circleOffsetX uniforms i) ^ 2 +
    (pos.y - circleOffsetY uniforms j) ^ 2) < radius

/-- The iteration range `-3..=3` of both loops in `noise_shader`
(src/shaders.rs lines 131 and 132), in iteration order. -/
def gridRange : List ℤ :=
  [-3, -2, -1, 0, 1, 2, 3]

/-- The inner `for j` loop of `noise_shader` (src/shaders.rs lines
132-143): walk the remaining j values with the current mask; on a hit,
set the mask to 1.0 and break. -/
def circleLoopJ (fragment : Fragment) (uniforms : Uniforms) (i : ℤ) :
    List ℤ → ℝ → ℝ
  | [], mask => mask
  | j :: rest, mask =>
    if circleHit fragment uniforms i j then 1.0
    else circleLoopJ fragment uniforms i rest mask

/-- The outer `for i` loop of `noise_shader` (src/shaders.rs lines
131-147): run the inner loop for each i, breaking as soon as the mask
equals 1.0. -/
def circleLoopI (fragment : Fragment) (uniforms : Uniforms) :
    List ℤ → ℝ → ℝ
  | [], mask => mask
  | i :: rest, mask =>
    let m := circleLoopJ fragment uniforms i gridRange mask
    if m = 1.0 then m else circleLoopI fragment uniforms rest m

/-- The final value of `circle_mask` in `noise_shader` (src/shaders.rs
lines 130-147): the early-exiting double loop starting from 0.0. -/
def circleMask (fragment : Fragment) (uniforms : Uniforms) : ℝ :=
  circleLoopI fragment uniforms gridRange 0.0

/-- The directional-light intensity computed inside `noise_shader`
(src/shaders.rs lines 125-127) from the fragment normal and the fixed
light direction (1, 1, 1), floored at 0. -/
def noiseLambert (fragment : Fragment) : ℝ :=
  let light_dir := Vec3.normalize ⟨1, 1, 1⟩
  let normal := fragment.normal.normalize
  max (normal.dot light_dir) 0

/-- The circle-grid variant (src/shaders.rs, `noise_shader`): black
scaled by its own computed light intensity inside a circle, white
scaled by a lifted version of that intensity outside. -/
def noise_shader (fragment : Fragment) (uniforms : Uniforms) : Color :=
  let intensity := noiseLambert fragment
  if circleMask fragment uniforms > 0.5 then
    (Color.new 0 0 0).scale intensity
  else
    (Color.new 255 255 255).scale (0.5 + intensity * 0.5)

/-- The pulsating crater threshold of `moon_shader_bright_craters`
(src/shaders.rs line 176): 0.4 plus a time-driven sine term. -/
def craterThreshold (uniforms : Uniforms) : ℝ :=
  let t : ℝ := (uniforms.time : ℝ) * 0.1
  let pulsate : ℝ := Real.sin (t * 0.5) * 0.05
  0.4 + pulsate

/-- The sampled surface noise of `moon_shader_bright_craters`
(src/shaders.rs line 170). -/
def moonSurfaceNoise (fragment : Fragment) (uniforms : Uniforms) : ℝ :=
  let zoom : ℝ := 50.0
  let x := fragment.vertex_position.x
  let y := fragment.vertex_position.y
  let t : ℝ := (uniforms.time : ℝ) * 0.1
  uniforms.noise (x * zoom + t) (y * zoom + t)

/-- Pre-scaling color of `moon_shader_bright_craters` (the local
`base_color` at src/shaders.rs lines 179-185): three-way threshold
classification of the surface noise. -/
def moonPreColor (fragment : Fragment) (uniforms : Uniforms) : Color :=
  let surface_noise := moonSurfaceNoise fragment uniforms
  let gray_color : Color := Color.new 200 200 200
  let bright_crater_color : Color := Color.new 220 220 220
  let dynamic_color : Color := Color.new 250 250 250
  let crater_threshold := craterThreshold uniforms
  if surface_noise > crater_threshold then gray_color
  else if surface_noise > crater_threshold - 0.1 then bright_crater_color
  else dynamic_color

/-- The moon variant (src/shaders.rs, `moon_shader_bright_craters`):
its pre-scaling base color, scaled by the fragment intensity. -/
def moon_shader_bright_craters (fragment : Fragment) (uniforms : Uniforms) :
    Color :=
  (moonPreColor fragment uniforms).scale fragment.intensity

/-- The sampled surface noise of `earth_clouds`
(src/shaders.rs line 197). -/
def earthSurfaceNoise (fragment : Fragment) (uniforms : Uniforms) : ℝ :=
  let zoom : ℝ := 80.0
  let x := fragment.vertex_position.x
  let y := fragment.vertex_position.y
  let t : ℝ := (uniforms.time : ℝ) * 0.1
  uniforms.noise (x * zoom + t) (y * zoom)

/-- The geographic base color of `earth_clouds` (src/shaders.rs lines
210-218): snow above the latitude threshold, otherwise land, desert or
ocean by noise thresholds. -/
def earthBaseColor (fragment : Fragment) (uniforms : Uniforms) : Color :=
  let y := fragment.vertex_position.y
  let surface_noise := earthSurfaceNoise fragment uniforms
  let ocean_color : Color := Color.new 0 105 148
  let land_color : Color := Color.new 34 139 34
  let desert_color : Color := Color.new 210 180 140
  let snow_color : Color := Color.new 255 250 250
  let snow_threshold : ℝ := 0.7
  let land_threshold : ℝ := 0.4
  let desert_threshold : ℝ := 0.3
  if |y| > snow_threshold then snow_color
  else if surface_noise > land_threshold then land_color
  else if surface_noise > desert_threshold then desert_color
  else ocean_color

/-- The sampled cloud noise of `earth_clouds`
(src/shaders.rs line 222). -/
def earthCloudNoise (fragment : Fragment) (uniforms : Uniforms) : ℝ :=
  let cloud_zoom : ℝ := 100.0
  let x := fragment.vertex_position.x
  let y := fragment.vertex_position.y
  let t : ℝ := (uniforms.time : ℝ) * 0.1
  uniforms.noise (x * cloud_zoom + t * 0.5) (y * cloud_zoom + t * 0.5)

/-- Pre-scaling color of `earth_clouds` (the local `final_color` at
src/shaders.rs lines 229-233): the base color blended with clouds or
with the sky gradient. -/
def earthPreColor (fragment : Fragment) (uniforms : Uniforms) : Color :=
  let base_color := earthBaseColor fragment uniforms
  let cloud_noise := earthCloudNoise fragment uniforms
  let cloud_color : Color := Color.new 255 255 255
  let sky_gradient : Color := Color.new 135 206 250
  let cloud_intensity : ℝ := rclamp cloud_noise 0.4 0.7 - 0.4
  if cloud_noise > 0.6 then
    base_color.lerp cloud_color (cloud_intensity * 0.5)
  else
    base_color.lerp sky_gradient 0.1

/-- The earth variant (src/shaders.rs, `earth_clouds`): its
pre-scaling color, scaled by the fragment intensity. -/
def earth_clouds (fragment : Fragment) (uniforms : Uniforms) : Color :=
  (earthPreColor fragment uniforms).scale fragment.intensity

/-- Pre-scaling color of `dynamic_cellular_shader` (the local
`final_color` at src/shaders.rs lines 256-264): four-way threshold
classification of the absolute cell noise value. -/
def cellularPreColor (fragment : Fragment) (uniforms : Uniforms) : Color :=
  let zoom : ℝ := 30.0
  let flow_speed : ℝ := 0.1
  let time : ℝ := (uniforms.time : ℝ) * flow_speed
  let x := fragment.vertex_position.x
  let y := fragment.vertex_position.y
  let cell_noise_value : ℝ := |uniforms.noise (x * zoom) (y * zoom + time)|
  let energy_color_1 : Color := Color.new 255 69 0
  let energy_color_2 : Color := Color.new 255 140 0
  let energy_color_3 : Color := Color.new 255 215 0
  let energy_color_4 : Color := Color.new 255 255 153
  if cell_noise_value < 0.2 then energy_color_1
  else if cell_noise_value < 0.5 then energy_color_2
  else if cell_noise_value < 0.8 then energy_color_3
  else energy_color_4

/-- The dynamic-cellular variant (src/shaders.rs,
`dynamic_cellular_shader`): its pre-scaling color, scaled by the
fragment intensity. -/
def dynamic_cellular_shader (fragment : Fragment) (uniforms : Uniforms) :
    Color :=
  (cellularPreColor fragment uniforms).scale fragment.intensity

/-- The unused fallback shader (src/shaders.rs, `default_shader`):
returns the fragment's own color. -/
def default_shader (fragment : Fragment) (_uniforms : Uniforms) : Color :=
  fragment.color

/-- The dispatch entry point (src/shaders.rs, `fragment_shader`):
indices 0-5 select the six variants in order; every other index falls
through to the dynamic-cellular variant. -/
def fragment_shader (fragment : Fragment) (uniforms : Uniforms)
    (current_shader : ℕ) : Color :=
  match current_shader with
  | 0 => sun_shader fragment uniforms
  | 1 => earth_clouds fragment uniforms
  | 2 => noise_shader fragment uniforms
  | 3 => moon_shader_bright_craters fragment uniforms
  | 4 => ripple_shader fragment uniforms
  | 5 => dynamic_cellular_shader fragment uniforms
  | _ => dynamic_cellular_shader fragment uniforms

/-- A concrete fragment used to instantiate universally quantified
theorems in their witnesses. -/
def fragA : Fragment :=
  ⟨⟨0, 1, 0⟩, ⟨0, 0, 1⟩, 1, Color.new 10 20 30⟩

/-- A concrete fragment with zero lighting intensity. -/
def fragZero : Fragment :=
  ⟨⟨0, 1, 0⟩, ⟨0, 0, 1⟩, 0, Color.new 10 20 30⟩

/-- A concrete uniforms value with identity matrices, time 0 and an
identically-zero noise field. -/
def unifA : Uniforms :=
  ⟨1, 1, 1, 1, 0, fun _ _ => 0⟩

/-- A concrete uniforms value whose model matrix is the zero matrix,
so that its upper-left 3x3 block is singular. -/
def unifSingular : Uniforms :=
  ⟨0, 1, 1, 1, 0, fun _ _ => 0⟩

/-- A concrete uniforms value whose noise field constantly returns
0.4, the crater threshold at time 0. -/
def unifMoon : Uniforms :=
  ⟨1, 1, 1, 1, 0, fun _ _ => 0.4⟩

/-- A concrete fragment lying above the snow latitude threshold. -/
def fragPolar : Fragment :=
  ⟨⟨0, 1, 0⟩, ⟨0, 0, 1⟩, 1, Color.new 0 0 0⟩

/-- A concrete fragment far away from every circle center of the
circle-grid variant at time 0, with zero lighting intensity and a
normal aligned with the variant's fixed light direction. -/
def fragFar : Fragment :=
  ⟨⟨100, 100, 0⟩, ⟨1, 1, 1⟩, 0, Color.new 0 0 0⟩

/-- The specification-side reading of `noise_shader`: an exhaustive
existence check over all 49 circle centers, with no early exit and no
dependence on iteration order. -/
def noise_shader_spec (fragment : Fragment) (uniforms : Uniforms) : Color :=
  let intensity := noiseLambert fragment
  if ∃ i ∈ gridRange, ∃ j ∈ gridRange, circleHit fragment uniforms i j then
    (Color.new 0 0 0).scale intensity
  else
    (Color.new 255 255 255).scale (0.5 + intensity * 0.5)

/-- A color whose three channels all lie within the representable
channel range [0, 255]. -/
def ColorInRange (c : Color) : Prop :=
  0 ≤ c.r ∧ c.r ≤ 255 ∧ 0 ≤ c.g ∧ c.g ≤ 255 ∧ 0 ≤ c.b ∧ c.b ≤ 255

/-- C3: for every vertex and uniforms, the output screen position is
obtained by applying projection * view * model to the homogeneous
position, dividing x, y, z by the clip-space w, re-homogenizing with
w = 1, applying the viewport matrix, and keeping x, y, z of the result
with the viewport-stage w discarded (not divided out). -/
theorem vertex_shader_position_pipeline (v : Vertex) (u : Uniforms) :
    (vertex_shader v u).transformed_position =
      (let clip : Vec4 := mulVec4
        (u.projection_matrix * u.view_matrix * u.model_matrix)
        ⟨v.position.x, v.position.y, v.position.z, 1⟩
      let ndc : Vec4 := ⟨clip.x / clip.w, clip.y / clip.w, clip.z / clip.w, 1⟩
      let screen : Vec4 := mulVec4 u.viewport_matrix ndc
      ⟨screen.x, screen.y, screen.z⟩) :=
  rfl

/-- C6: the vertex stage copies position, normal, texture coordinates
and color through unchanged; it only fills the two transformed fields
and mutates nothing of the input. -/
theorem vertex_shader_passthrough (v : Vertex) (u : Uniforms) :
    (vertex_shader v u).position = v.position ∧
    (vertex_shader v u).normal = v.normal ∧
    (vertex_shader v u).tex_coords = v.tex_coords ∧
    (vertex_shader v u).color = v.color :=
  ⟨rfl, rfl, rfl, rfl⟩

/-- C2: the dispatch maps indices 0 through 5 to exactly the six named
variants, and every index at least 6 yields the same color as index 5
(the dynamic-cellular default), with no error possible. -/
theorem fragment_shader_dispatch (f : Fragment) (u : Uniforms) :
    fragment_shader f u 0 = sun_shader f u ∧
    fragment_shader f u 1 = earth_clouds f u ∧
    fragment_shader f u 2 = noise_shader f u ∧
    fragment_shader f u 3 = moon_shader_bright_craters f u ∧
    fragment_shader f u 4 = ripple_shader f u ∧
    fragment_shader f u 5 = dynamic_cellular_shader f u ∧
    ∀ n : ℕ, 6 ≤ n → fragment_shader f u n = fragment_shader f u 5 := by
  refine ⟨rfl, rfl, rfl, rfl, rfl, rfl, ?_⟩
  intro n hn
  obtain ⟨m, rfl⟩ : ∃ m, n = m + 6 := ⟨n - 6, by omega⟩
  rfl

/-- Witness for C2 at a concrete out-of-range index. -/
theorem fragment_shader_dispatch_witness :
    6 ≤ 999 ∧ fragment_shader fragA unifA 999 = fragment_shader fragA unifA 5 :=
  ⟨by norm_num, (fragment_shader_dispatch fragA unifA).2.2.2.2.2.2 999 (by norm_num)⟩

/-- C8: both entry points are deterministic pure functions. Repeated
calls of the vertex stage on identical inputs agree, and the fragment
dispatch (hence every variant) depends only on the fragment's
position, normal and intensity together with the uniforms' time and
noise source — in particular not on any per-frame mutable state. -/
theorem shader_determinism :
    (∀ (v : Vertex) (u : Uniforms), vertex_shader v u = vertex_shader v u) ∧
    ∀ (f1 f2 : Fragment) (u1 u2 : Uniforms) (idx : ℕ),
      f1.vertex_position = f2.vertex_position → f1.normal = f2.normal →
      f1.intensity = f2.intensity → u1.time = u2.time → u1.noise = u2.noise →
      fragment_shader f1 u1 idx = fragment_shader f2 u2 idx := by
  refine ⟨fun v u => rfl, ?_⟩
  intro f1 f2 u1 u2 idx h1 h2 h3 h4 h5
  obtain ⟨p1, n1, i1, c1⟩ := f1
  obtain ⟨p2, n2, i2, c2⟩ := f2
  obtain ⟨ma1, mb1, mc1, md1, t1, no1⟩ := u1
  obtain ⟨ma2, mb2, mc2, md2, t2, no2⟩ := u2
  simp only at h1 h2 h3 h4 h5
  subst h1; subst h2; subst h3; subst h4; subst h5
  match idx with
  | 0 => rfl
  | 1 => rfl
  | 2 => rfl
  | 3 => rfl
  | 4 => rfl
  | 5 => rfl
  | (m + 6) => rfl

/-- Witness for C8 at concrete inputs differing only in the fields the
shaders may not read (fragment base color, the four matrices). -/
theorem shader_determinism_witness :
    fragment_shader ⟨⟨0, 1, 0⟩, ⟨0, 0, 1⟩, 1, Color.new 10 20 30⟩ unifA 0 =
      fragment_shader ⟨⟨0, 1, 0⟩, ⟨0, 0, 1⟩, 1, Color.new 99 99 99⟩
        ⟨0, 0, 0, 0, 0, fun _ _ => 0⟩ 0 :=
  shader_determinism.2 _ _ _ _ 0 rfl rfl rfl rfl rfl

/-- C4: when the upper-left 3x3 block of the model matrix is
invertible, the transformed normal is the transpose of the inverse of
that block applied to the input normal, with no renormalization; the
code's inverse-of-the-transpose coincides with the spec's
transpose-of-the-inverse. -/
theorem vertex_shader_normal_matrix (v : Vertex) (u : Uniforms)
    (h : IsUnit (mat4_to_mat3 u.model_matrix).det) :
    (vertex_shader v u).transformed_normal =
      mulVec3 ((mat4_to_mat3 u.model_matrix)⁻¹).transpose v.normal := by
  show mulVec3 ((try_inverse (mat4_to_mat3 u.model_matrix).transpose).getD 1)
      v.normal = _
  rw [try_inverse, if_pos (by rwa [Matrix.det_transpose]), Option.getD_some,
    ← Matrix.transpose_nonsing_inv]

/-- Witness for C4 with the identity model matrix. -/
theorem vertex_shader_normal_matrix_witness :
    IsUnit (mat4_to_mat3 (unifA.model_matrix)).det ∧
    (vertex_shader ⟨⟨1, 2, 3⟩, ⟨4, 5, 6⟩, ⟨0, 0⟩, Color.new 1 1 1, ⟨0, 0, 0⟩,
        ⟨0, 0, 0⟩⟩ unifA).transformed_normal =
      mulVec3 ((mat4_to_mat3 unifA.model_matrix)⁻¹).transpose ⟨4, 5, 6⟩ := by
  have h : IsUnit (mat4_to_mat3 (unifA.model_matrix)).det := by
    have : mat4_to_mat3 (unifA.model_matrix) = 1 := by
      ext i j
      simp [mat4_to_mat3, unifA, Matrix.one_apply, Fin.ext_iff]
    rw [this]
    simp
  exact ⟨h, vertex_shader_normal_matrix _ unifA h⟩

/-- C5: when the upper-left 3x3 block of the model matrix is singular,
the vertex stage does not fail: the identity matrix is substituted for
the normal matrix, so the transformed normal equals the input normal
unchanged. -/
theorem vertex_shader_normal_fallback (v : Vertex) (u : Uniforms)
    (h : ¬ IsUnit (mat4_to_mat3 u.model_matrix).det) :
    (vertex_shader v u).transformed_normal = v.normal := by
  show mulVec3 ((try_inverse (mat4_to_mat3 u.model_matrix).transpose).getD 1)
      v.normal = _
  rw [try_inverse, if_neg (by rwa [Matrix.det_transpose]), Option.getD_none]
  obtain ⟨x, y, z⟩ := v.normal
  simp [mulVec3, Matrix.one_apply]

/-- Witness for C5 with the all-zero (hence singular) model matrix. -/
theorem vertex_shader_normal_fallback_witness :
    ¬ IsUnit (mat4_to_mat3 (unifSingular.model_matrix)).det ∧
    (vertex_shader ⟨⟨1, 2, 3⟩, ⟨4, 5, 6⟩, ⟨0, 0⟩, Color.new 1 1 1, ⟨0, 0, 0⟩,
        ⟨0, 0, 0⟩⟩ unifSingular).transformed_normal = ⟨4, 5, 6⟩ := by
  have h : ¬ IsUnit (mat4_to_mat3 (unifSingular.model_matrix)).det := by
    have : mat4_to_mat3 (unifSingular.model_matrix) = 0 := by
      ext i j
      simp [mat4_to_mat3, unifSingular]
    rw [this, Matrix.det_zero (by infer_instance)]
    simp
  exact ⟨h, vertex_shader_normal_fallback _ unifSingular h⟩

/-- C7: when the sampled surface noise equals the crater threshold
exactly, the strict greater-than branch is not taken (the boundary is
exclusive on the high side) and the moon shader returns the bright
crater color (220, 220, 220) scaled by the fragment intensity. -/
theorem moon_shader_threshold_boundary (f : Fragment) (u : Uniforms)
    (h : moonSurfaceNoise f u = craterThreshold u) :
    moon_shader_bright_craters f u =
      (Color.new 220 220 220).scale f.intensity := by
  unfold moon_shader_bright_craters moonPreColor
  rw [h]
  rw [if_neg (lt_irrefl (craterThreshold u)), if_pos (by norm_num)]

/-- Witness for C7: at time 0 the pulsation term vanishes, the
threshold is exactly 0.4, and a constant-0.4 noise source hits the
boundary. -/
theorem moon_shader_threshold_boundary_witness :
    moonSurfaceNoise fragA unifMoon = craterThreshold unifMoon ∧
    moon_shader_bright_craters fragA unifMoon =
      (Color.new 220 220 220).scale fragA.intensity := by
  have h : moonSurfaceNoise fragA unifMoon = craterThreshold unifMoon := by
    simp [moonSurfaceNoise, craterThreshold, unifMoon]
  exact ⟨h, moon_shader_threshold_boundary fragA unifMoon h⟩

/-- C10: the earth shader picks the snow base color exactly when the
absolute value of the fragment's y coordinate exceeds 0.7, regardless
of the sampled noise; otherwise the 0.4 and 0.3 noise thresholds pick
among land, desert and ocean. -/
theorem earth_snow_selection (f : Fragment) (u : Uniforms) :
    (earthBaseColor f u = Color.new 255 250 250 ↔
      |f.vertex_position.y| > 0.7) ∧
    (|f.vertex_position.y| ≤ 0.7 →
      earthBaseColor f u =
        if earthSurfaceNoise f u > 0.4 then Color.new 34 139 34
        else if earthSurfaceNoise f u > 0.3 then Color.new 210 180 140
        else Color.new 0 105 148) := by
  unfold earthBaseColor
  rcases lt_or_le (0.7 : ℝ) |f.vertex_position.y| with hy | hy
  · rw [if_pos hy]
    exact ⟨⟨fun _ => hy, fun _ => rfl⟩, fun h => absurd hy (not_lt.mpr h)⟩
  · rw [if_neg (not_lt.mpr hy)]
    refine ⟨⟨fun h => ?_, fun h => absurd h (not_lt.mpr hy)⟩, fun _ => rfl⟩
    revert h
    split
    · intro h
      exact absurd (congrArg Color.r h) (by norm_num [Color.new])
    · split
      · intro h
        exact absurd (congrArg Color.r h) (by norm_num [Color.new])
      · intro h
        exact absurd (congrArg Color.r h) (by norm_num [Color.new])

/-- Witness for C10: a fragment at y = 1 gets the snow base color even
with an identically-zero noise field. -/
theorem earth_snow_selection_witness :
    |fragPolar.vertex_position.y| > 0.7 ∧
    earthBaseColor fragPolar unifA = Color.new 255 250 250 := by
  have h : |fragPolar.vertex_position.y| > 0.7 := by
    show |(1 : ℝ)| > 0.7
    norm_num
  exact ⟨h, (earth_snow_selection fragPolar unifA).1.mpr h⟩

/-- The inner loop computes 1 exactly when some remaining j hits,
otherwise passes the incoming mask through. -/
lemma circleLoopJ_eq_existence (f : Fragment) (u : Uniforms) (i : ℤ)
    (js : List ℤ) (mask : ℝ) :
    circleLoopJ f u i js mask =
      if ∃ j ∈ js, circleHit f u i j then 1.0 else mask := by
  induction js with
  | nil => simp [circleLoopJ]
  | cons j rest ih =>
    by_cases h : circleHit f u i j
    · simp [circleLoopJ, h]
    · simp only [circleLoopJ, if_neg h, ih, List.mem_cons]
      congr 1
      simp [h]

/-- The outer loop, started from mask 0, computes 1 exactly when some
pair of indices in the remaining rows hits. -/
lemma circleLoopI_eq_existence (f : Fragment) (u : Uniforms)
    (is : List ℤ) :
    circleLoopI f u is 0 =
      if ∃ i ∈ is, ∃ j ∈ gridRange, circleHit f u i j then 1.0 else 0 := by
  induction is with
  | nil => simp [circleLoopI]
  | cons i rest ih =>
    show (let m := circleLoopJ f u i gridRange 0
      if m = 1.0 then m else circleLoopI f u rest m) = _
    rw [circleLoopJ_eq_existence]
    by_cases h : ∃ j ∈ gridRange, circleHit f u i j
    · have hcons : ∃ a ∈ i :: rest, ∃ j ∈ gridRange, circleHit f u a j :=
        ⟨i, List.mem_cons_self i rest, h⟩
      rw [if_pos h, if_pos hcons]
      simp
    · rw [if_neg h]
      have h01 : (0 : ℝ) ≠ 1.0 := by norm_num
      rw [if_neg h01, ih]
      by_cases h2 : ∃ a ∈ rest, ∃ j ∈ gridRange, circleHit f u a j
      · obtain ⟨a, ha, hj⟩ := h2
        have hcons : ∃ a ∈ i :: rest, ∃ j ∈ gridRange, circleHit f u a j :=
          ⟨a, List.mem_cons_of_mem i ha, hj⟩
        rw [if_pos ⟨a, ha, hj⟩, if_pos hcons]
      · have hcons : ¬ ∃ a ∈ i :: rest, ∃ j ∈ gridRange, circleHit f u a j := by
          rintro ⟨a, ha, hj⟩
          rcases List.mem_cons.mp ha with h1 | h1
          · exact h (h1 ▸ hj)
          · exact h2 ⟨a, h1, hj⟩
        rw [if_neg h2, if_neg hcons]

/-- The final circle mask is 1 when some of the 49 centers is hit and
0 otherwise. -/
lemma circleMask_eq_existence (f : Fragment) (u : Uniforms) :
    circleMask f u =
      if ∃ i ∈ gridRange, ∃ j ∈ gridRange, circleHit f u i j
      then 1.0 else 0 := by
  have h0 : (0.0 : ℝ) = 0 := by norm_num
  unfold circleMask
  rw [h0, circleLoopI_eq_existence]

/-- C9: the early-exiting 7x7 loop of the circle-grid variant is
equivalent to an exhaustive existence check — the returned color
depends only on whether at least one of the 49 circle centers lies
within radius 0.1 of the fragment position, not on which circle
matched or on iteration order. -/
theorem noise_shader_refines_existence (f : Fragment) (u : Uniforms) :
    noise_shader f u = noise_shader_spec f u := by
  unfold noise_shader noise_shader_spec
  rw [circleMask_eq_existence]
  by_cases h : ∃ i ∈ gridRange, ∃ j ∈ gridRange, circleHit f u i j
  · rw [if_pos h, if_pos h, if_pos (by norm_num)]
  · rw [if_neg h, if_neg h, if_neg (by norm_num)]

/-- Scaling any color by factor 0 yields the zero (black) color. -/
lemma Color.scale_zero (c : Color) : c.scale 0 = Color.new 0 0 0 := by
  simp [Color.scale, rclamp, Color.new]

/-- Scaling a color whose channels are in range by factor 1 leaves it
unchanged. -/
lemma Color.scale_one (c : Color) (h : ColorInRange c) : c.scale 1 = c := by
  obtain ⟨r, g, b⟩ := c
  obtain ⟨h1, h2, h3, h4, h5, h6⟩ := h
  simp only [Color.scale, mul_one, rclamp, Color.mk.injEq]
  exact ⟨by rw [max_eq_left h1, min_eq_left h2],
    by rw [max_eq_left h3, min_eq_left h4],
    by rw [max_eq_left h5, min_eq_left h6]⟩

/-- A clamp never exceeds its upper bound. -/
lemma rclamp_le (v lo hi : ℝ) : rclamp v lo hi ≤ hi :=
  min_le_right _ _

/-- A clamp with ordered bounds never falls below its lower bound. -/
lemma le_rclamp (v lo hi : ℝ) (h : lo ≤ hi) : lo ≤ rclamp v lo hi :=
  le_min (le_max_right _ _) h

/-- Linear interpolation with a factor in [0, 1] between colors with
in-range channels stays in range. -/
lemma lerp_inRange (a b : Color) (t : ℝ) (ht0 : 0 ≤ t) (ht1 : t ≤ 1)
    (ha : ColorInRange a) (hb : ColorInRange b) :
    ColorInRange (a.lerp b t) := by
  obtain ⟨a1, a2, a3, a4, a5, a6⟩ := ha
  obtain ⟨b1, b2, b3, b4, b5, b6⟩ := hb
  refine ⟨?_, ?_, ?_, ?_, ?_, ?_⟩ <;> simp only [Color.lerp] <;> nlinarith

/-- The pre-scaling sun color always has in-range channels. -/
lemma sunPreColor_inRange (f : Fragment) (u : Uniforms) :
    ColorInRange (sunPreColor f u) := by
  unfold sunPreColor
  apply lerp_inRange
  · exact le_rclamp _ _ _ (by norm_num)
  · exact rclamp_le _ _ _
  · norm_num [ColorInRange, Color.new]
  · split <;> norm_num [ColorInRange, Color.new]

/-- The pre-scaling ripple color always has in-range channels. -/
lemma ripplePreColor_inRange (f : Fragment) (u : Uniforms) :
    ColorInRange (ripplePreColor f u) := by
  unfold ripplePreColor
  apply lerp_inRange
  · exact le_rclamp _ _ _ (by norm_num)
  · exact rclamp_le _ _ _
  · norm_num [ColorInRange, Color.new]
  · norm_num [ColorInRange, Color.new]

/-- The pre-scaling moon base color always has in-range channels. -/
lemma moonPreColor_inRange (f : Fragment) (u : Uniforms) :
    ColorInRange (moonPreColor f u) := by
  unfold moonPreColor
  dsimp only
  split
  · norm_num [ColorInRange, Color.new]
  · split <;> norm_num [ColorInRange, Color.new]

/-- The pre-scaling cellular color always has in-range channels. -/
lemma cellularPreColor_inRange (f : Fragment) (u : Uniforms) :
    ColorInRange (cellularPreColor f u) := by
  unfold cellularPreColor
  dsimp only
  split
  · norm_num [ColorInRange, Color.new]
  · split
    · norm_num [ColorInRange, Color.new]
    · split <;> norm_num [ColorInRange, Color.new]

/-- The earth base color always has in-range channels. -/
lemma earthBaseColor_inRange (f : Fragment) (u : Uniforms) :
    ColorInRange (earthBaseColor f u) := by
  unfold earthBaseColor
  dsimp only
  split
  · norm_num [ColorInRange, Color.new]
  · split
    · norm_num [ColorInRange, Color.new]
    · split <;> norm_num [ColorInRange, Color.new]

/-- The pre-scaling earth color always has in-range channels. -/
lemma earthPreColor_inRange (f : Fragment) (u : Uniforms) :
    ColorInRange (earthPreColor f u) := by
  unfold earthPreColor
  dsimp only
  split
  · apply lerp_inRange
    · have := le_rclamp (earthCloudNoise f u) 0.4 0.7 (by norm_num)
      linarith
    · have := rclamp_le (earthCloudNoise f u) 0.4 0.7
      linarith
    · exact earthBaseColor_inRange f u
    · norm_num [ColorInRange, Color.new]
  · apply lerp_inRange
    · norm_num
    · norm_num
    · exact earthBaseColor_inRange f u
    · norm_num [ColorInRange, Color.new]

/-- C1 (amended): the five variants other than the circle-grid one
finish by scaling their pre-scaling color by the fragment intensity —
intensity 0 yields black and intensity 1 yields the pre-scaling color
unchanged — while `noise_shader` ignores `fragment.intensity`
entirely, scaling instead by its own light term computed from the
fragment normal. -/
theorem variant_intensity_scaling (f : Fragment) (u : Uniforms) :
    (f.intensity = 0 →
      sun_shader f u = Color.new 0 0 0 ∧
      earth_clouds f u = Color.new 0 0 0 ∧
      moon_shader_bright_craters f u = Color.new 0 0 0 ∧
      ripple_shader f u = Color.new 0 0 0 ∧
      dynamic_cellular_shader f u = Color.new 0 0 0) ∧
    (f.intensity = 1 →
      sun_shader f u = sunPreColor f u ∧
      earth_clouds f u = earthPreColor f u ∧
      moon_shader_bright_craters f u = moonPreColor f u ∧
      ripple_shader f u = ripplePreColor f u ∧
      dynamic_cellular_shader f u = cellularPreColor f u) ∧
    (∀ t : ℝ, noise_shader f u =
      noise_shader ⟨f.vertex_position, f.normal, t, f.color⟩ u) := by
  refine ⟨fun h0 => ?_, fun h1 => ?_, fun t => rfl⟩
  · unfold sun_shader earth_clouds moon_shader_bright_craters ripple_shader
      dynamic_cellular_shader
    rw [h0]
    exact ⟨Color.scale_zero _, Color.scale_zero _, Color.scale_zero _,
      Color.scale_zero _, Color.scale_zero _⟩
  · unfold sun_shader earth_clouds moon_shader_bright_craters ripple_shader
      dynamic_cellular_shader
    rw [h1]
    exact ⟨Color.scale_one _ (sunPreColor_inRange f u),
      Color.scale_one _ (earthPreColor_inRange f u),
      Color.scale_one _ (moonPreColor_inRange f u),
      Color.scale_one _ (ripplePreColor_inRange f u),
      Color.scale_one _ (cellularPreColor_inRange f u)⟩

/-- Witness for the amended C1 at concrete intensities 0 and 1. -/
theorem variant_intensity_scaling_witness :
    fragZero.intensity = 0 ∧ sun_shader fragZero unifA = Color.new 0 0 0 ∧
    fragA.intensity = 1 ∧ sun_shader fragA unifA = sunPreColor fragA unifA :=
  ⟨rfl, ((variant_intensity_scaling fragZero unifA).1 rfl).1, rfl,
    ((variant_intensity_scaling fragA unifA).2.1 rfl).1⟩

/-- An element of the iteration range is between -3 and 3. -/
lemma mem_gridRange_bounds {i : ℤ} (h : i ∈ gridRange) : -3 ≤ i ∧ i ≤ 3 := by
  fin_cases h <;> norm_num

/-- C1 counterexample: at a fragment with intensity 0 placed far from
every circle center, `noise_shader` returns pure white, not the black
color the claim demands of every variant at intensity 0. -/
theorem noise_shader_intensity_counterexample :
    fragFar.intensity = 0 ∧ noise_shader fragFar unifA ≠ Color.new 0 0 0 := by
  have hnohit : ¬ ∃ i ∈ gridRange, ∃ j ∈ gridRange,
      circleHit fragFar unifA i j := by
    rintro ⟨i, hi, j, hj, hhit⟩
    obtain ⟨hi1, hi2⟩ := mem_gridRange_bounds hi
    obtain ⟨hj1, hj2⟩ := mem_gridRange_bounds hj
    have hx : circleOffsetX unifA i = (i : ℝ) * 0.3 := by
      simp [circleOffsetX, unifA]
    have hy : circleOffsetY unifA j = (j : ℝ) * 0.3 := by
      simp [circleOffsetY, unifA]
    unfold circleHit at hhit
    rw [hx, hy] at hhit
    dsimp only at hhit
    have hfx : fragFar.vertex_position.x = 100 := rfl
    have hfy : fragFar.vertex_position.y = 100 := rfl
    rw [hfx, hfy, Real.sqrt_lt' (by norm_num : (0 : ℝ) < 0.1)] at hhit
    have hiR : (i : ℝ) ≤ 3 := by exact_mod_cast hi2
    have hjR : (j : ℝ) ≤ 3 := by exact_mod_cast hj2
    have h1 : (99.1 : ℝ) ≤ 100 - (i : ℝ) * 0.3 := by linarith
    have h2 : (99.1 : ℝ) ≤ 100 - (j : ℝ) * 0.3 := by linarith
    nlinarith [h1, h2, hhit]
  have hmask : circleMask fragFar unifA = 0 := by
    rw [circleMask_eq_existence, if_neg hnohit]
  have hlam : noiseLambert fragFar = 1 := by
    unfold noiseLambert Vec3.normalize Vec3.dot
    have hfn : fragFar.normal = ⟨1, 1, 1⟩ := rfl
    rw [hfn]
    have h3 : Real.sqrt ((1 : ℝ) ^ 2 + 1 ^ 2 + 1 ^ 2) = Real.sqrt 3 := by
      norm_num
    simp only [h3]
    have hs : Real.sqrt 3 * Real.sqrt 3 = 3 := Real.mul_self_sqrt (by norm_num)
    have hne : Real.sqrt 3 ≠ 0 :=
      ne_of_gt (Real.sqrt_pos.mpr (by norm_num))
    have hdot : (1 / Real.sqrt 3) * (1 / Real.sqrt 3) +
        (1 / Real.sqrt 3) * (1 / Real.sqrt 3) +
        (1 / Real.sqrt 3) * (1 / Real.sqrt 3) = 1 := by
      field_simp
      norm_num
    rw [hdot]
    norm_num
  have hwhite : noise_shader fragFar unifA = Color.new 255 255 255 := by
    unfold noise_shader
    rw [hmask, hlam, if_neg (by norm_num : ¬ (0 : ℝ) > 0.5)]
    norm_num [Color.scale, rclamp, Color.new]
  refine ⟨rfl, ?_⟩
  rw [hwhite]
  intro hcontra
  exact absurd (congrArg Color.r hcontra) (by norm_num [Color.new])

end
